import Mathlib

/-!
Verification of the SemanticAIDetect pipeline (src/yt_detect.py).

The file shallowly embeds the pure content of the script:

* `extractVideoId` — the regex search
  `re.search(r"(?:v=|\/)([\w-]{11})(?:\?|&|\/|$)", url)` performed by
  `download_youtube_video`, modelled for ASCII inputs (Python `\w` on
  ASCII text is `[A-Za-z0-9_]`).  `re.search` returns the match at the
  leftmost position, so the model scans positions left to right.
* `download_youtube_video` — the acquisition/cache function, with the
  file system passed explicitly and counters for network fetches and
  directory creations.
* `saveUpload` — the File Upload branch of the UI, which writes the
  uploaded bytes to the fixed path `temp_upload.mp4`.
* `pollFrom`/`ingest` — the upload-and-poll loop of `upload_to_gemini`,
  with the provider modelled as the sequence of states it reports
  (index 0 is the state returned by the initial upload, index `n+1` the
  state returned by the `n`-th `files.get` call) and a fuel bound so
  that the non-terminating always-PROCESSING behaviour is observable as
  fuel exhaustion at every fuel.
* `analyze_visuals`/`analyze_audio` — the classifier post-processing:
  the model response text is handed to the external `json.loads`, whose
  outcome (`none` = raises, `some v` = the parsed value) is the input of
  the embedded function; the source applies no validation of its own.
* `vScoreOf`/`aScoreOf` etc. — the dashboard field extraction
  `visual_res.get("visual_score", 0)` and friends.
* `runAnalysis` — the straight-line analysis block of the UI as an
  event trace: the ingest observations followed, on success, by the
  visual and then the audio classification call.
-/

/-! ## Video id extraction (the regex in download_youtube_video) -/

/-- Character class `[\w-]` of the regex, for ASCII input. -/
def wordChar (c : Char) : Bool :=
  c.isAlphanum || c == '_' || c == '-'

/-- The terminating lookahead alternatives `?`, `&`, `/` of the regex
(`$`, end of input, is handled separately). -/
def termChar (c : Char) : Bool :=
  c == '?' || c == '&' || c == '/'

/-- The lookahead `(?:\?|&|\/|$)` applied to what follows the captured
group: end of input or one of the terminator characters. -/
def termOk : List Char → Bool
  | [] => true
  | c :: _ => termChar c

/-- After the `v=` or `/` anchor has been consumed: match exactly eleven
`[\w-]` characters followed by `?`, `&`, `/` or the end of the string,
returning the captured group. -/
def matchBody (cs : List Char) : Option (List Char) :=
  if (cs.take 11).length == 11 && (cs.take 11).all wordChar && termOk (cs.drop 11) then
    some (cs.take 11)
  else
    none

/-- Attempt of the whole pattern `(?:v=|\/)([\w-]{11})(?:\?|&|\/|$)` at the
start of the given suffix of the URL: the anchor alternation tries `v=`
first, then `/` (they cannot both apply, their first characters differ). -/
def matchAtPos (cs : List Char) : Option (List Char) :=
  match cs with
  | [] => none
  | [c] => if c = '/' then matchBody [] else none
  | c :: c2 :: rest =>
    if c = 'v' ∧ c2 = '=' then matchBody rest
    else if c = '/' then matchBody (c2 :: rest)
    else none

/-- `re.search`: try the pattern at each position, leftmost first. -/
def searchFrom : List Char → Option (List Char)
  | [] => none
  | c :: rest =>
    match matchAtPos (c :: rest) with
    | some l => some l
    | none => searchFrom rest

/-- `video_id_match.group(1)` of `download_youtube_video`, or `none` when
the regex does not match (the `ValueError` / `InvalidSourceError` case). -/
def extractVideoId (url : String) : Option String :=
  (searchFrom url.data).map String.mk

/-! ## The on-disk cache and the acquisition function -/

/-- The observable file system state: files with their contents (contents
abstracted to a numeric token) and the set of directories. -/
structure FS where
  files : List (String × Nat)
  dirs : List String
deriving DecidableEq

/-- Content stored at a path, newest write first. -/
def FS.lookup (fs : FS) (p : String) : Option Nat :=
  (fs.files.find? fun e => e.1 == p).map fun e => e.2

/-- The canonical cache path `downloads/<video_id>.mp4`. -/
def cachePath (id : String) : String :=
  "downloads/" ++ id ++ ".mp4"

/-- Errors of the acquisition step; `invalidSource` is the
`ValueError("Could not extract video ID from URL")` of the source, the
spec's `InvalidSourceError`. -/
inductive AcqError where
  | invalidSource
deriving DecidableEq

/-- Result of one `download_youtube_video` call: the returned value or
error, the file system afterwards, the number of network fetches
performed and the number of directories created. -/
structure AcqResult where
  result : Except AcqError String
  fs : FS
  fetches : Nat
  mkdirs : Nat

/-- Step 3 of `download_youtube_video`: `os.makedirs("downloads")` guarded
by `os.path.exists("downloads")`. -/
def ensureDownloads (fs : FS) : FS :=
  ⟨fs.files, if fs.dirs.contains "downloads" then fs.dirs else "downloads" :: fs.dirs⟩

/-- `download_youtube_video(url)`: extract the id, ensure the `downloads`
directory, return the cached file when present, otherwise fetch (writing
`content`, the bytes the network would deliver) to the canonical path. -/
def download_youtube_video (fs : FS) (url : String) (content : Nat) : AcqResult :=
  match extractVideoId url with
  | none => ⟨Except.error AcqError.invalidSource, fs, 0, 0⟩
  | some id =>
    if ((ensureDownloads fs).lookup (cachePath id)).isSome then
      ⟨Except.ok (cachePath id), ensureDownloads fs, 0,
        if fs.dirs.contains "downloads" then 0 else 1⟩
    else
      ⟨Except.ok (cachePath id),
        ⟨(cachePath id, content) :: (ensureDownloads fs).files, (ensureDownloads fs).dirs⟩, 1,
        if fs.dirs.contains "downloads" then 0 else 1⟩

/-- The File Upload branch of the UI: write the uploaded bytes to the
fixed path `temp_upload.mp4` (truncating any previous content) and hand
that path to the analysis. -/
def saveUpload (fs : FS) (content : Nat) : FS × String :=
  (⟨("temp_upload.mp4", content) :: fs.files, fs.dirs⟩, "temp_upload.mp4")

/-- Well-formedness of a file system as a real disk provides it: a file
stored at a canonical cache path implies the `downloads` directory
exists. -/
def FS.wf (fs : FS) : Prop :=
  ∀ id : String, ((fs.lookup (cachePath id)).isSome = true) →
    fs.dirs.contains "downloads" = true

/-! ## Remote asset ingestion (upload_to_gemini) -/

/-- Outcome of the poll loop of `upload_to_gemini`: either the returned
handle (identified by its terminal state string) or the raised
`ValueError("Video processing failed at Google's end.")`, the spec's
`IngestionError`.  `polls` counts the status observations (the initial
upload plus every `files.get`), `sleeps` the `time.sleep(1)` calls. -/
inductive IngestOutcome where
  | success (state : String) (polls : Nat) (sleeps : Nat)
  | failure (polls : Nat) (sleeps : Nat)
deriving DecidableEq

/-- Observations consumed by an ingest run. -/
def IngestOutcome.polls : IngestOutcome → Nat
  | .success _ p _ => p
  | .failure p _ => p

/-- One-time-unit sleeps performed by an ingest run. -/
def IngestOutcome.sleeps : IngestOutcome → Nat
  | .success _ _ s => s
  | .failure _ s => s

/-- The `while video_file.state == "PROCESSING"` loop of
`upload_to_gemini`, currently looking at observation `i` of the provider
stream `f`, with explicit fuel: `none` means the fuel ran out with the
loop still spinning, so divergence of the unbounded loop is `none` at
every fuel. -/
def pollFrom (f : Nat → String) : Nat → Nat → Option IngestOutcome
  | 0, _ => none
  | fuel + 1, i =>
    if f i = "PROCESSING" then
      pollFrom f fuel (i + 1)
    else if f i = "FAILED" then
      some (IngestOutcome.failure (i + 1) i)
    else
      some (IngestOutcome.success (f i) (i + 1) i)

/-- `upload_to_gemini` after the initial upload: observation 0 is the
state of the handle the upload returned, observation `n + 1` the state
reported by the `n`-th `files.get`. -/
def ingest (f : Nat → String) (fuel : Nat) : Option IngestOutcome :=
  pollFrom f fuel 0

/-! ## Classifier post-processing and dashboard extraction -/

/-- JSON values as `json.loads` produces them (numbers restricted to the
integers the response schemas declare). -/
inductive JVal where
  | jnull
  | jbool (b : Bool)
  | jnum (n : Int)
  | jstr (s : String)
  | jarr (elems : List JVal)
  | jobj (fields : List (String × JVal))

/-- The classifier failure: `json.loads` raised on unparseable response
text (the spec's `ClassificationError`). -/
inductive ClassificationError where
  | unparseableResponse
deriving DecidableEq

/-- `analyze_visuals` after the model call: the response text goes
through the external `json.loads`, whose outcome is the argument
(`none` = the decode raised, `some v` = the parsed value); the function
returns the parsed value unchanged — the source performs no validation
against the declared schema. -/
def analyze_visuals (parsed : Option JVal) : Except ClassificationError JVal :=
  match parsed with
  | none => Except.error ClassificationError.unparseableResponse
  | some v => Except.ok v

/-- `analyze_audio` after the model call; identical post-processing to
`analyze_visuals`. -/
def analyze_audio (parsed : Option JVal) : Except ClassificationError JVal :=
  match parsed with
  | none => Except.error ClassificationError.unparseableResponse
  | some v => Except.ok v

/-- Python `dict.get(key)` on a parsed JSON object. -/
def dictGet (fields : List (String × JVal)) (k : String) : Option JVal :=
  (fields.find? fun e => e.1 == k).map fun e => e.2

/-- Python `dict.get(key, default)`. -/
def dictGetD (fields : List (String × JVal)) (k : String) (d : JVal) : JVal :=
  (dictGet fields k).getD d

/-- Dashboard: `v_score = visual_res.get("visual_score", 0)`. -/
def vScoreOf (fields : List (String × JVal)) : JVal :=
  dictGetD fields "visual_score" (JVal.jnum 0)

/-- Dashboard: `a_score = audio_res.get("audio_score", 0)`. -/
def aScoreOf (fields : List (String × JVal)) : JVal :=
  dictGetD fields "audio_score" (JVal.jnum 0)

/-- Dashboard: `anomalies = visual_res.get("visual_anomalies", [])`. -/
def anomaliesOf (fields : List (String × JVal)) : JVal :=
  dictGetD fields "visual_anomalies" (JVal.jarr [])

/-! ## The analysis block of the UI as an event trace -/

/-- Externally visible events of one pipeline run: a status observation
of the ingest poll loop, the visual classification request, the audio
classification request. -/
inductive Ev where
  | observe (s : String)
  | classifyVisual
  | classifyAudio
deriving DecidableEq

/-- The first `n` status observations as a trace. -/
def obsTrace (f : Nat → String) (n : Nat) : List Ev :=
  (List.range n).map fun i => Ev.observe (f i)

/-- The `try:` block of the UI's analysis logic: `upload_to_gemini`,
then — only when it returned instead of raising — `analyze_visuals`
followed by `analyze_audio`.  `none` when the fuel ran out inside the
poll loop. -/
def runAnalysis (f : Nat → String) (fuel : Nat) : Option (List Ev) :=
  match ingest f fuel with
  | none => none
  | some (IngestOutcome.success _ p _) =>
    some (obsTrace f p ++ [Ev.classifyVisual, Ev.classifyAudio])
  | some (IngestOutcome.failure p _) =>
    some (obsTrace f p)


/-! ## Lemmas about the regex search -/

theorem matchAtPos_nil : matchAtPos [] = none := rfl

theorem matchBody_length {cs : List Char} {l : List Char}
    (h : matchBody cs = some l) : l.length = 11 := by
  unfold matchBody at h
  split at h
  · rename_i hc
    simp only [Bool.and_eq_true, beq_iff_eq] at hc
    cases h
    exact hc.1.1
  · simp at h

theorem matchAtPos_length {cs : List Char} {l : List Char}
    (h : matchAtPos cs = some l) : l.length = 11 := by
  rcases cs with _ | ⟨c, _ | ⟨c2, rest⟩⟩
  · simp [matchAtPos] at h
  · simp only [matchAtPos] at h
    split at h
    · exact matchBody_length h
    · simp at h
  · simp only [matchAtPos] at h
    split at h
    · exact matchBody_length h
    · split at h
      · exact matchBody_length h
      · simp at h

theorem searchFrom_length {cs : List Char} {l : List Char}
    (h : searchFrom cs = some l) : l.length = 11 := by
  induction cs with
  | nil => simp [searchFrom] at h
  | cons c rest ih =>
    rw [searchFrom] at h
    rcases hm : matchAtPos (c :: rest) with _ | l2
    · rw [hm] at h
      exact ih h
    · rw [hm] at h
      cases h
      exact matchAtPos_length hm

theorem extractVideoId_length {url : String} {id : String}
    (h : extractVideoId url = some id) : id.length = 11 := by
  unfold extractVideoId at h
  rcases hs : searchFrom url.data with _ | l
  · rw [hs] at h
    simp at h
  · rw [hs] at h
    simp only [Option.map_some'] at h
    cases h
    exact searchFrom_length hs

theorem searchFrom_some {cs : List Char} {l : List Char}
    (h : searchFrom cs = some l) :
    ∃ p, matchAtPos (cs.drop p) = some l ∧
      ∀ q, q < p → matchAtPos (cs.drop q) = none := by
  induction cs with
  | nil => simp [searchFrom] at h
  | cons c rest ih =>
    rw [searchFrom] at h
    rcases hm : matchAtPos (c :: rest) with _ | l2
    · rw [hm] at h
      obtain ⟨p, h1, h2⟩ := ih h
      refine ⟨p + 1, by simpa using h1, ?_⟩
      intro q hq
      rcases q with _ | q'
      · simpa using hm
      · simpa using h2 q' (by omega)
    · rw [hm] at h
      cases h
      exact ⟨0, by simpa using hm, by omega⟩

theorem searchFrom_of_matchAtPos {cs : List Char} {l : List Char} {p : Nat}
    (hp : matchAtPos (cs.drop p) = some l)
    (hmin : ∀ q, q < p → matchAtPos (cs.drop q) = none) :
    searchFrom cs = some l := by
  induction cs generalizing p with
  | nil => simp [matchAtPos_nil] at hp
  | cons c rest ih =>
    rcases p with _ | p'
    · simp only [List.drop_zero] at hp
      rw [searchFrom, hp]
    · have h0 : matchAtPos (c :: rest) = none := by simpa using hmin 0 (by omega)
      rw [searchFrom, h0]
      exact ih (by simpa using hp) (fun q hq => by simpa using hmin (q + 1) (by omega))

theorem searchFrom_none {cs : List Char}
    (h : searchFrom cs = none) : ∀ p, matchAtPos (cs.drop p) = none := by
  induction cs with
  | nil => intro p; simp [matchAtPos_nil]
  | cons c rest ih =>
    intro p
    rw [searchFrom] at h
    rcases hm : matchAtPos (c :: rest) with _ | l2
    · rw [hm] at h
      rcases p with _ | p'
      · simpa using hm
      · simpa using ih h p'
    · rw [hm] at h
      simp at h

/-! ## Lemmas about the poll loop -/

theorem pollFrom_none_of_processing (f : Nat → String)
    (hf : ∀ n, f n = "PROCESSING") : ∀ fuel i, pollFrom f fuel i = none := by
  intro fuel
  induction fuel with
  | zero => intro i; rfl
  | succ fu ih =>
    intro i
    rw [pollFrom, if_pos (hf i)]
    exact ih (i + 1)

theorem pollFrom_spec {f : Nat → String} :
    ∀ {fuel i out}, pollFrom f fuel i = some out →
      ∃ k, i ≤ k ∧ k < i + fuel ∧
        (∀ j, i ≤ j → j < k → f j = "PROCESSING") ∧
        f k ≠ "PROCESSING" ∧
        ((f k = "FAILED" ∧ out = IngestOutcome.failure (k + 1) k) ∨
         (f k ≠ "FAILED" ∧ out = IngestOutcome.success (f k) (k + 1) k)) := by
  intro fuel
  induction fuel with
  | zero => intro i out h; simp [pollFrom] at h
  | succ fu ih =>
    intro i out h
    rw [pollFrom] at h
    by_cases hp : f i = "PROCESSING"
    · rw [if_pos hp] at h
      obtain ⟨k, h1, h2, h3, h4, h5⟩ := ih h
      refine ⟨k, by omega, by omega, ?_, h4, h5⟩
      intro j hj1 hj2
      rcases Nat.eq_or_lt_of_le hj1 with he | hlt
      · rw [← he]; exact hp
      · exact h3 j hlt hj2
    · rw [if_neg hp] at h
      by_cases hfl : f i = "FAILED"
      · rw [if_pos hfl] at h
        cases h
        exact ⟨i, le_refl i, by omega,
          fun j hj1 hj2 => absurd (Nat.lt_of_le_of_lt hj1 hj2) (Nat.lt_irrefl i),
          hp, Or.inl ⟨hfl, rfl⟩⟩
      · rw [if_neg hfl] at h
        cases h
        exact ⟨i, le_refl i, by omega,
          fun j hj1 hj2 => absurd (Nat.lt_of_le_of_lt hj1 hj2) (Nat.lt_irrefl i),
          hp, Or.inr ⟨hfl, rfl⟩⟩

theorem pollFrom_reaches {f : Nat → String} :
    ∀ {fuel i k}, i ≤ k → k < i + fuel →
      (∀ j, i ≤ j → j < k → f j = "PROCESSING") →
      f k ≠ "PROCESSING" → f k ≠ "FAILED" →
      pollFrom f fuel i = some (IngestOutcome.success (f k) (k + 1) k) := by
  intro fuel
  induction fuel with
  | zero => intro i k h1 h2 h3 h4 h5; exact absurd h2 (by omega)
  | succ fu ih =>
    intro i k h1 h2 h3 h4 h5
    rcases Nat.eq_or_lt_of_le h1 with he | hlt
    · rw [pollFrom, he, if_neg h4, if_neg h5]
    · have hpi : f i = "PROCESSING" := h3 i (le_refl i) hlt
      rw [pollFrom, if_pos hpi]
      exact ih (by omega) (by omega) (fun j hj1 hj2 => h3 j (by omega) hj2) h4 h5

/-! ## Lemmas about the cache model -/

theorem ensureDownloads_files (fs : FS) : (ensureDownloads fs).files = fs.files := rfl

theorem ensureDownloads_lookup (fs : FS) (p : String) :
    (ensureDownloads fs).lookup p = fs.lookup p := rfl

theorem ensureDownloads_of_contains {fs : FS}
    (h : fs.dirs.contains "downloads" = true) : ensureDownloads fs = fs := by
  unfold ensureDownloads
  rw [if_pos h]

theorem ensureDownloads_contains (fs : FS) :
    (ensureDownloads fs).dirs.contains "downloads" = true := by
  unfold ensureDownloads
  by_cases h : fs.dirs.contains "downloads" = true
  · rw [if_pos h]; exact h
  · rw [if_neg h]
    simp [List.contains_cons]

theorem FS.lookup_cons (q : String) (c : Nat) (files : List (String × Nat))
    (d : List String) (p : String) :
    FS.lookup ⟨(q, c) :: files, d⟩ p =
      if q == p then some c else FS.lookup ⟨files, d⟩ p := by
  by_cases h : (q == p) = true
  · simp [FS.lookup, List.find?, h]
  · simp only [Bool.not_eq_true] at h
    simp [FS.lookup, List.find?, h]

theorem acquire_of_invalid {url : String} (fs : FS) (c : Nat)
    (h : extractVideoId url = none) :
    download_youtube_video fs url c =
      ⟨Except.error AcqError.invalidSource, fs, 0, 0⟩ := by
  simp only [download_youtube_video, h]

theorem acquire_of_hit {url id : String} (fs : FS) (c : Nat)
    (h : extractVideoId url = some id)
    (hl : (fs.lookup (cachePath id)).isSome = true) :
    download_youtube_video fs url c =
      ⟨Except.ok (cachePath id), ensureDownloads fs, 0,
        if fs.dirs.contains "downloads" then 0 else 1⟩ := by
  simp only [download_youtube_video, h, ensureDownloads_lookup, hl, if_true]

theorem acquire_of_miss {url id : String} (fs : FS) (c : Nat)
    (h : extractVideoId url = some id)
    (hl : (fs.lookup (cachePath id)).isSome = false) :
    download_youtube_video fs url c =
      ⟨Except.ok (cachePath id),
        ⟨(cachePath id, c) :: fs.files, (ensureDownloads fs).dirs⟩, 1,
        if fs.dirs.contains "downloads" then 0 else 1⟩ := by
  simp only [download_youtube_video, h, ensureDownloads_lookup, hl, ensureDownloads_files,
    Bool.false_eq_true, if_false]

theorem acquire_cached {url id : String} (fs : FS) (c : Nat)
    (h : extractVideoId url = some id) :
    ((download_youtube_video fs url c).fs.lookup (cachePath id)).isSome = true := by
  by_cases hl : (fs.lookup (cachePath id)).isSome = true
  · rw [acquire_of_hit fs c h hl]
    simpa [ensureDownloads_lookup] using hl
  · simp only [Bool.not_eq_true] at hl
    rw [acquire_of_miss fs c h hl]
    simp [FS.lookup_cons]

/-! ## Claim theorems -/

/-- C3: for every URL from which no 11-character identifier token is
extractable, acquire fails with the invalid-source error and performs no
disk operation and no network operation: the file system is unchanged,
no directory is created, no file is written, no fetch happens. -/
theorem invalid_source_rejected (fs : FS) (url : String) (c : Nat)
    (h : extractVideoId url = none) :
    download_youtube_video fs url c =
      ⟨Except.error AcqError.invalidSource, fs, 0, 0⟩ :=
  acquire_of_invalid fs c h

/-- C3 witness: the identifier-free URL is rejected with no effect. -/
theorem invalid_source_rejected_witness :
    download_youtube_video ⟨[], []⟩ "https://example.com" 5 =
      ⟨Except.error AcqError.invalidSource, ⟨[], []⟩, 0, 0⟩ :=
  invalid_source_rejected ⟨[], []⟩ "https://example.com" 5 (by decide)

/-- C4: a provider reporting PROCESSING, PROCESSING, READY is observed
exactly three times and the READY handle is returned (after two sleeps);
a provider whose first observed state is FAILED makes ingest fail with
the ingestion error on that single observation, with no further poll and
no sleep. -/
theorem ingest_state_machine (f g : Nat → String) (fuel fuel' : Nat)
    (h0 : f 0 = "PROCESSING") (h1 : f 1 = "PROCESSING") (h2 : f 2 = "READY")
    (hfuel : 3 ≤ fuel) (hg : g 0 = "FAILED") (hfuel' : 1 ≤ fuel') :
    ingest f fuel = some (IngestOutcome.success "READY" 3 2) ∧
    ingest g fuel' = some (IngestOutcome.failure 1 0) := by
  constructor
  · have hres : pollFrom f fuel 0 = some (IngestOutcome.success (f 2) 3 2) :=
      pollFrom_reaches (by omega) (by omega)
        (fun j hj1 hj2 => by
          interval_cases j
          · exact h0
          · exact h1)
        (by rw [h2]; decide) (by rw [h2]; decide)
    rw [h2] at hres
    exact hres
  · obtain ⟨m, rfl⟩ : ∃ m, fuel' = m + 1 := ⟨fuel' - 1, by omega⟩
    rw [ingest, pollFrom, if_neg (by rw [hg]; decide), if_pos hg]

/-- C4 witness: concrete mock providers exercising both halves. -/
theorem ingest_state_machine_witness :
    ingest (fun n => if n < 2 then "PROCESSING" else "READY") 3 =
      some (IngestOutcome.success "READY" 3 2) ∧
    ingest (fun _ => "FAILED") 1 = some (IngestOutcome.failure 1 0) :=
  ingest_state_machine (fun n => if n < 2 then "PROCESSING" else "READY")
    (fun _ => "FAILED") 3 1 rfl rfl rfl (by omega) rfl (by omega)

/-- C8: the poll loop has no internal timeout: against a provider that
reports PROCESSING at every observation it returns at no fuel bound;
and whenever it does return, the sleeps sit at a fixed one-time-unit
interval between consecutive observations (polls = sleeps + 1) and the
run ended exactly at the first observation that left PROCESSING. -/
theorem ingest_unbounded_wait :
    (∀ f : Nat → String, (∀ n, f n = "PROCESSING") →
      ∀ fuel i, pollFrom f fuel i = none) ∧
    (∀ (f : Nat → String) (fuel : Nat) (out : IngestOutcome),
      ingest f fuel = some out →
      out.polls = out.sleeps + 1 ∧
      f out.sleeps ≠ "PROCESSING" ∧
      ∀ j, j < out.sleeps → f j = "PROCESSING") := by
  constructor
  · exact fun f hf => pollFrom_none_of_processing f hf
  · intro f fuel out h
    obtain ⟨k, -, -, h3, h4, h5⟩ := pollFrom_spec h
    rcases h5 with ⟨-, rfl⟩ | ⟨-, rfl⟩ <;>
      exact ⟨rfl, h4, fun j hj => h3 j (Nat.zero_le j) hj⟩

/-- C8 witness: the loop is still spinning at fuel 5 on the constant
PROCESSING provider, and a run that returned after one observation slept
zero times. -/
theorem ingest_unbounded_wait_witness :
    pollFrom (fun _ => "PROCESSING") 5 0 = none ∧
    (IngestOutcome.success "READY" 1 0).polls =
      (IngestOutcome.success "READY" 1 0).sleeps + 1 :=
  ⟨ingest_unbounded_wait.1 (fun _ => "PROCESSING") (fun _ => rfl) 5 0,
    (ingest_unbounded_wait.2 (fun _ => "READY") 1
      (IngestOutcome.success "READY" 1 0) rfl).1⟩

/-- C9: any first observed state other than PROCESSING and FAILED — not
only READY — is treated as success: ingest returns that handle without
error. -/
theorem ingest_accepts_any_non_failed (f : Nat → String) (k fuel : Nat)
    (h1 : ∀ j, j < k → f j = "PROCESSING")
    (h2 : f k ≠ "PROCESSING") (h3 : f k ≠ "FAILED") (h4 : k < fuel) :
    ingest f fuel = some (IngestOutcome.success (f k) (k + 1) k) :=
  pollFrom_reaches (Nat.zero_le k) (by omega) (fun j _ hj => h1 j hj) h2 h3

/-- C9 witness: a provider reporting the unknown state DELETED is
accepted as a success on the first observation. -/
theorem ingest_accepts_any_non_failed_witness :
    ingest (fun _ => "DELETED") 1 =
      some (IngestOutcome.success "DELETED" 1 0) :=
  ingest_accepts_any_non_failed (fun _ => "DELETED") 0 1
    (fun j hj => absurd hj (by omega)) (by decide) (by decide) (by omega)

/-- C1 (amended): the cache key is the token captured by the leftmost
accepted positional pattern of the URL — so all URLs whose leftmost
accepted match captures the same identifier derive the identical key —
and the example URL yields key dQw4w9WgXcQ with cache path
downloads/dQw4w9WgXcQ.mp4. -/
theorem key_is_leftmost_match :
    (∀ (url id : String) (p : Nat),
      matchAtPos (url.data.drop p) = some id.data →
      (∀ q, q < p → matchAtPos (url.data.drop q) = none) →
      extractVideoId url = some id) ∧
    extractVideoId "https://www.youtube.com/watch?v=dQw4w9WgXcQ" =
      some "dQw4w9WgXcQ" ∧
    cachePath "dQw4w9WgXcQ" = "downloads/dQw4w9WgXcQ.mp4" ∧
    (download_youtube_video ⟨[], []⟩
      "https://www.youtube.com/watch?v=dQw4w9WgXcQ" 7).result =
      Except.ok "downloads/dQw4w9WgXcQ.mp4" := by
  refine ⟨?_, by decide, by decide, rfl⟩
  intro url id p hp hmin
  unfold extractVideoId
  rw [searchFrom_of_matchAtPos hp hmin]
  rfl

/-- C1 witness: the leftmost-match rule applied at a concrete URL whose
only accepted match sits at position 9. -/
theorem key_is_leftmost_match_witness :
    extractVideoId "https://x/aaaaaaaaaaa" = some "aaaaaaaaaaa" :=
  key_is_leftmost_match.1 "https://x/aaaaaaaaaaa" "aaaaaaaaaaa" 9
    (by decide) (by decide)

/-- C1 counterexample: two URLs both containing the identifier
dQw4w9WgXcQ in an accepted positional pattern (after v=, terminated by
end of string) derive different cache keys, because the second URL has
an earlier accepted match aaaaaaaaaaa. -/
theorem key_derivation_counterexample :
    extractVideoId "https://www.youtube.com/watch?v=dQw4w9WgXcQ" =
      some "dQw4w9WgXcQ" ∧
    matchAtPos (("https://x/aaaaaaaaaaa/watch?v=dQw4w9WgXcQ").data.drop 28) =
      some ("dQw4w9WgXcQ").data ∧
    extractVideoId "https://x/aaaaaaaaaaa/watch?v=dQw4w9WgXcQ" =
      some "aaaaaaaaaaa" ∧
    ("aaaaaaaaaaa" : String) ≠ "dQw4w9WgXcQ" :=
  ⟨by decide, by decide, by decide, by decide⟩

/-- C10 (amended): identifier extraction is purely syntactic and not
restricted to the platform's URL scheme: every URL containing an
accepted positional pattern is accepted, the derived key is itself the
token of the leftmost accepted pattern, and
https://example.com/abcdefghijk is accepted with key abcdefghijk. -/
theorem syntactic_extraction :
    (∀ (url : String) (p : Nat) (x : List Char),
      matchAtPos (url.data.drop p) = some x →
      (extractVideoId url).isSome = true) ∧
    (∀ (url key : String), extractVideoId url = some key →
      ∃ q, matchAtPos (url.data.drop q) = some key.data ∧
        ∀ r, r < q → matchAtPos (url.data.drop r) = none) ∧
    extractVideoId "https://example.com/abcdefghijk" = some "abcdefghijk" := by
  refine ⟨?_, ?_, by decide⟩
  · intro url p x hp
    rcases hs : searchFrom url.data with _ | l
    · exact absurd (searchFrom_none hs p) (by rw [hp]; simp)
    · simp [extractVideoId, hs]
  · intro url key hk
    unfold extractVideoId at hk
    rcases hs : searchFrom url.data with _ | l
    · rw [hs] at hk
      simp at hk
    · rw [hs] at hk
      simp only [Option.map_some'] at hk
      obtain ⟨q, hq1, hq2⟩ := searchFrom_some hs
      cases hk
      exact ⟨q, hq1, hq2⟩

/-- C10 witness: acceptance applied to the non-platform URL, whose
accepted pattern sits at position 19. -/
theorem syntactic_extraction_witness :
    (extractVideoId "https://example.com/abcdefghijk").isSome = true :=
  syntactic_extraction.1 "https://example.com/abcdefghijk" 19
    ("abcdefghijk").data (by decide)

/-- C10 counterexample: a URL containing the token ccccccccccc in an
accepted positional pattern (after /, terminated by end of string) whose
derived cache key is the earlier token bbbbbbbbbbb, not that token. -/
theorem syntactic_extraction_counterexample :
    extractVideoId "https://a/bbbbbbbbbbb/ccccccccccc" = some "bbbbbbbbbbb" ∧
    matchAtPos (("https://a/bbbbbbbbbbb/ccccccccccc").data.drop 21) =
      some ("ccccccccccc").data ∧
    ("bbbbbbbbbbb" : String) ≠ "ccccccccccc" :=
  ⟨by decide, by decide, by decide⟩

theorem cachePath_length (id : String) : (cachePath id).length = id.length + 14 := by
  unfold cachePath
  rw [String.length_append, String.length_append]
  have h1 : ("downloads/" : String).length = 10 := rfl
  have h2 : (".mp4" : String).length = 4 := rfl
  omega

theorem cachePath_ne_temp {url id : String} (h : extractVideoId url = some id) :
    cachePath id ≠ "temp_upload.mp4" := by
  intro he
  have hl := congrArg String.length he
  rw [cachePath_length, extractVideoId_length h] at hl
  have h15 : ("temp_upload.mp4" : String).length = 15 := rfl
  omega

/-- C2: when the derived key's canonical path already exists on a
well-formed disk, acquire returns it with the file system untouched, no
fetch and no directory creation; and a second acquire with a URL
deriving the same key performs zero fetches and returns the same path,
so the fetch runs at most once per distinct key. -/
theorem cache_hit_short_circuit (fs : FS) (url url' : String)
    (c c' c0 : Nat) (id : String) (h : extractVideoId url = some id) :
    (FS.wf fs → fs.lookup (cachePath id) = some c0 →
      download_youtube_video fs url c =
        ⟨Except.ok (cachePath id), fs, 0, 0⟩) ∧
    (extractVideoId url' = some id →
      (download_youtube_video (download_youtube_video fs url c).fs url' c').fetches = 0 ∧
      (download_youtube_video (download_youtube_video fs url c).fs url' c').result =
        Except.ok (cachePath id)) := by
  constructor
  · intro hwf hl
    have hd : fs.dirs.contains "downloads" = true := hwf id (by rw [hl]; rfl)
    rw [acquire_of_hit fs c h (by rw [hl]; rfl), ensureDownloads_of_contains hd,
      if_pos hd]
  · intro h'
    have hc := acquire_cached fs c h
    rw [acquire_of_hit _ c' h' hc]
    exact ⟨rfl, rfl⟩

/-- C2 witness: a second request for the already cached dQw4w9WgXcQ is a
pure cache hit. -/
theorem cache_hit_short_circuit_witness :
    download_youtube_video ⟨[("downloads/dQw4w9WgXcQ.mp4", 7)], ["downloads"]⟩
      "https://www.youtube.com/watch?v=dQw4w9WgXcQ" 3 =
      ⟨Except.ok (cachePath "dQw4w9WgXcQ"),
        ⟨[("downloads/dQw4w9WgXcQ.mp4", 7)], ["downloads"]⟩, 0, 0⟩ :=
  (cache_hit_short_circuit ⟨[("downloads/dQw4w9WgXcQ.mp4", 7)], ["downloads"]⟩
    "https://www.youtube.com/watch?v=dQw4w9WgXcQ" "" 3 4 7 "dQw4w9WgXcQ"
    (by decide)).1 (fun _ _ => rfl) rfl

/-- C6 (amended): acquire via URL changes no existing path and at most
creates the canonical entry downloads/<id>.mp4 for the derived key; the
upload branch instead writes the fixed path temp_upload.mp4 — which is
not a canonical cache path — and overwrites it on every upload. -/
theorem cache_artifact_discipline :
    (∀ (fs : FS) (url : String) (c : Nat) (p : String),
      (download_youtube_video fs url c).fs.lookup p = fs.lookup p ∨
      (∃ id, extractVideoId url = some id ∧ p = cachePath id ∧
        fs.lookup p = none ∧
        (download_youtube_video fs url c).fs.lookup p = some c)) ∧
    (∀ (fs : FS) (c : Nat),
      (saveUpload fs c).2 = "temp_upload.mp4" ∧
      (saveUpload fs c).1.lookup "temp_upload.mp4" = some c) ∧
    (∀ (url id : String), extractVideoId url = some id →
      cachePath id ≠ "temp_upload.mp4") := by
  refine ⟨?_, ?_, fun url id h => cachePath_ne_temp h⟩
  · intro fs url c p
    rcases he : extractVideoId url with _ | id
    · left
      rw [acquire_of_invalid fs c he]
    · by_cases hl : (fs.lookup (cachePath id)).isSome = true
      · left
        rw [acquire_of_hit fs c he hl]
        exact ensureDownloads_lookup fs p
      · simp only [Bool.not_eq_true] at hl
        rw [acquire_of_miss fs c he hl]
        by_cases hp : p = cachePath id
        · right
          have hnone : fs.lookup (cachePath id) = none := by
            rcases ho : fs.lookup (cachePath id) with _ | v
            · rfl
            · rw [ho] at hl
              simp at hl
          refine ⟨id, rfl, hp, by rw [hp]; exact hnone, ?_⟩
          show FS.lookup ⟨(cachePath id, c) :: fs.files, (ensureDownloads fs).dirs⟩ p
            = some c
          rw [hp, FS.lookup_cons]
          simp
        · left
          show FS.lookup ⟨(cachePath id, c) :: fs.files, (ensureDownloads fs).dirs⟩ p
            = fs.lookup p
          have hb : (cachePath id == p) = false :=
            beq_eq_false_iff_ne.mpr (fun hh => hp hh.symm)
          rw [FS.lookup_cons, hb]
          simp only [Bool.false_eq_true, if_false]
          rfl
  · intro fs c
    refine ⟨rfl, ?_⟩
    show FS.lookup ⟨("temp_upload.mp4", c) :: fs.files, fs.dirs⟩ "temp_upload.mp4"
      = some c
    rw [FS.lookup_cons]
    simp

/-- C6 witness: the key derived from the example URL names a canonical
cache path, which is not the upload branch's target. -/
theorem cache_artifact_discipline_witness :
    cachePath "dQw4w9WgXcQ" ≠ "temp_upload.mp4" :=
  cache_artifact_discipline.2.2 "https://www.youtube.com/watch?v=dQw4w9WgXcQ"
    "dQw4w9WgXcQ" (by decide)

/-- C6 counterexample: an acquire call in the upload-bytes case
overwrites the existing entry at temp_upload.mp4 (content 1 becomes
content 2), refuting that no cache entry is ever overwritten and that
downloads/<id>.mp4 is the only managed on-disk artifact. -/
theorem cache_overwrite_counterexample :
    FS.lookup ⟨[("temp_upload.mp4", 1)], []⟩ "temp_upload.mp4" = some 1 ∧
    (saveUpload ⟨[("temp_upload.mp4", 1)], []⟩ 2).1.lookup "temp_upload.mp4"
      = some 2 :=
  ⟨rfl, rfl⟩

/-- C5 (amended): a model response whose text is unparseable as JSON
fails with the classification error (the decode exception), but a
parseable schema-violating response does not fail: both classifiers
return the parsed value with no validation, and the dashboard performs
best-effort extraction, defaulting a missing score field to 0. -/
theorem classifier_validation :
    (∀ p : Option JVal,
      analyze_visuals p = Except.error ClassificationError.unparseableResponse
        ↔ p = none) ∧
    (∀ p : Option JVal,
      analyze_audio p = Except.error ClassificationError.unparseableResponse
        ↔ p = none) ∧
    (∀ v : JVal, analyze_visuals (some v) = Except.ok v) ∧
    (∀ v : JVal, analyze_audio (some v) = Except.ok v) ∧
    (∀ fields : List (String × JVal),
      dictGet fields "visual_score" = none → vScoreOf fields = JVal.jnum 0) ∧
    (∀ fields : List (String × JVal),
      dictGet fields "audio_score" = none → aScoreOf fields = JVal.jnum 0) := by
  refine ⟨?_, ?_, fun v => rfl, fun v => rfl, ?_, ?_⟩
  · intro p
    cases p <;> simp [analyze_visuals]
  · intro p
    cases p <;> simp [analyze_audio]
  · intro fields h
    unfold vScoreOf dictGetD
    rw [h]
    rfl
  · intro fields h
    unfold aScoreOf dictGetD
    rw [h]
    rfl

/-- C5 witness: an empty parsed object has no score field and the
dashboard renders 0 for it. -/
theorem classifier_validation_witness :
    vScoreOf [] = JVal.jnum 0 :=
  classifier_validation.2.2.2.2.1 [] rfl

/-- C5 counterexample: a parsed response violating the declared schema
(the required visual_score field is missing) is returned by the
classifier without any error, and the dashboard extracts a defaulted
score of 0 — a best-effort extraction, not a failure. -/
theorem classifier_no_strict_validation :
    analyze_visuals (some (JVal.jobj [("visual_verdict", JVal.jstr "Real")])) =
      Except.ok (JVal.jobj [("visual_verdict", JVal.jstr "Real")]) ∧
    dictGet [("visual_verdict", JVal.jstr "Real")] "visual_score" = none ∧
    vScoreOf [("visual_verdict", JVal.jstr "Real")] = JVal.jnum 0 :=
  ⟨rfl, rfl, rfl⟩

/-- C7: against a provider honouring the documented state machine
(PROCESSING, READY or FAILED only), whenever a run's trace contains a
classification call, the trace is exactly the poll observations — whose
last observation is READY — followed by the visual and then the audio
classification: ingestion completes before either classification call
and the two calls are issued sequentially, visual first. -/
theorem ready_before_classification (f : Nat → String) (fuel : Nat)
    (tr : List Ev)
    (hf : ∀ n, f n = "PROCESSING" ∨ f n = "READY" ∨ f n = "FAILED")
    (htr : runAnalysis f fuel = some tr)
    (hc : Ev.classifyVisual ∈ tr ∨ Ev.classifyAudio ∈ tr) :
    ∃ k, f k = "READY" ∧ (∀ j, j < k → f j = "PROCESSING") ∧
      tr = obsTrace f (k + 1) ++ [Ev.classifyVisual, Ev.classifyAudio] := by
  unfold runAnalysis at htr
  rcases hi : ingest f fuel with _ | out
  · rw [hi] at htr
    simp at htr
  · rw [hi] at htr
    obtain ⟨k, -, -, h3, h4, h5⟩ :=
      pollFrom_spec (show pollFrom f fuel 0 = some out from hi)
    rcases h5 with ⟨hfk, rfl⟩ | ⟨hfk, rfl⟩
    · simp only [Option.some.injEq] at htr
      rw [← htr] at hc
      rcases hc with hc | hc <;> simp [obsTrace, List.mem_map] at hc
    · simp only [Option.some.injEq] at htr
      have hready : f k = "READY" := by
        rcases hf k with h | h | h
        · exact absurd h h4
        · exact h
        · exact absurd h hfk
      exact ⟨k, hready, fun j hj => h3 j (Nat.zero_le j) hj, htr.symm⟩

/-- C7 witness: with a provider immediately READY, the run's trace is
the single READY observation followed by the visual then the audio
classification. -/
theorem ready_before_classification_witness :
    [Ev.observe "READY", Ev.classifyVisual, Ev.classifyAudio] =
      obsTrace (fun _ => "READY") 1 ++ [Ev.classifyVisual, Ev.classifyAudio] := by
  obtain ⟨k, hk, hproc, htr⟩ := ready_before_classification (fun _ => "READY") 1
    [Ev.observe "READY", Ev.classifyVisual, Ev.classifyAudio]
    (fun _ => Or.inr (Or.inl rfl)) rfl (Or.inl (by decide))
  have hk0 : k = 0 := by
    by_contra hne
    have hp0 := hproc 0 (by omega)
    exact absurd hp0 (by decide)
  rw [hk0] at htr
  exact htr
